import Mathlib

/-!
Verification of the marker-based stream segmenter and project-name
resolver of `unpack_artifact.py` (claude-artifact-unpacker).

The Python source is embedded shallowly:

* `process_input` (source lines 140-188) becomes a fold of `processLine`
  over the input lines, with the accumulator `SegState` mirroring the
  local variables `current_file`, `current_content`, `files_to_process`
  and `marker_style`.  Input lines are taken already newline-stripped
  (the source applies `line.rstrip('\n')` at its I/O boundary; the data
  model of the stream is a sequence of newline-stripped lines).
* Python truthiness of `current_file` (`None` and `""` are both falsy)
  is captured by `truthyStr`.
* `str.startswith` / `str.endswith` are modelled over the character
  lists of the strings (`strStartsWith`, `strEndsWith`).
* The name extractors (source lines 26-118) are embedded one by one;
  the third-party TOML parser `tomli.loads` is abstracted as a function
  `String → Option TomlVal` (`none` = parse failure), and the two
  regular expressions of the source are embedded as explicit
  leftmost-match scanners over character lists.
-/

/-- Newline character, written by code point to keep the text plain. -/
def nlChar : Char := Char.ofNat 10

/-- Splitting accumulator: models Python `str.split(sep)` for a
one-character separator (all occurrences, empty pieces kept). -/
def splitCharAux (sep : Char) : List Char → List Char → List String
  | [], acc => [String.mk acc.reverse]
  | c :: rest, acc =>
    if c == sep then String.mk acc.reverse :: splitCharAux sep rest []
    else splitCharAux sep rest (c :: acc)

/-- Models Python `str.split(sep)` for a one-character separator. -/
def splitChar (sep : Char) (s : String) : List String :=
  splitCharAux sep s.data []

/-- Models Python `content.split('\n')`. -/
def splitLines (s : String) : List String := splitChar nlChar s

/-- Models Python `sep.join(xs)`. -/
def joinWith (sep : String) : List String → String
  | [] => ""
  | [x] => x
  | x :: y :: rest => x ++ sep ++ joinWith sep (y :: rest)

/-- Models Python string slicing `s[n:]` (character count). -/
def strDrop (s : String) (n : Nat) : String := String.mk (s.data.drop n)

/-- Models Python `str.startswith`: `p` is a literal prefix of `s`. -/
def strStartsWith (s p : String) : Bool :=
  p.data.isPrefixOf s.data

/-- Models Python `str.endswith`: `p` is a literal suffix of `s`. -/
def strEndsWith (s p : String) : Bool :=
  p.data.isSuffixOf s.data

/-- Python truthiness for an optional string: `None` and `""` are falsy. -/
def truthyStr : Option String → Bool
  | none => false
  | some s => s != ""

/-- State of the single-pass segmenter loop of `process_input`
(source lines 145-148): the open file, its accumulated content lines,
the emitted records, and the detected marker style. -/
structure SegState where
  currentFile : Option String
  currentContent : List String
  files : List (String × String)
  markerStyle : Option String
deriving Repr, DecidableEq

/-- Marker-style detection (source lines 154-155): the first line that
starts with `"// "` or `"# "` fixes the style. -/
def detect_style (line : String) : Option String :=
  if strStartsWith line "// " then some "// "
  else if strStartsWith line "# " then some "# "
  else none

/-- One iteration of the `for line in input_stream` loop of
`process_input` (source lines 150-182), transliterated branch by
branch: style detection, the `is_new_file` test (marker prefix, not a
placeholder, and a file boundary: no truthy open file, or empty
accumulated content, or a blank last content line), emission of the
previous file without its trailing blank separator line
(`current_content[:-1]`), the placeholder branch, and content
accumulation.  A line is ignored when no truthy file is open. -/
def processLine (st : SegState) (line : String) : SegState :=
  let ms : Option String :=
    match st.markerStyle with
    | some s => some s
    | none => detect_style line
  let isNewFile : Bool :=
    match ms with
    | none => false
    | some style =>
      strStartsWith line style && !strStartsWith line (style ++ "[") &&
        (!truthyStr st.currentFile || st.currentContent.isEmpty ||
          st.currentContent.getLast? == some "")
  if isNewFile then
    if truthyStr st.currentFile then
      { currentFile := some (strDrop line (ms.getD "").length)
        currentContent := []
        files := st.files ++ [(st.currentFile.getD "",
          joinWith "\n" st.currentContent.dropLast)]
        markerStyle := ms }
    else
      { st with currentFile := some (strDrop line (ms.getD "").length), markerStyle := ms }
  else
    if truthyStr st.currentFile then
      match ms with
      | some style =>
        if strStartsWith line (style ++ "[") && strEndsWith line "]" then
          { currentFile := none
            currentContent := []
            files := st.files ++ [(st.currentFile.getD "", strDrop line style.length)]
            markerStyle := ms }
        else
          { st with currentContent := st.currentContent ++ [line], markerStyle := ms }
      | none =>
        { st with currentContent := st.currentContent ++ [line], markerStyle := ms }
    else
      { st with markerStyle := ms }

/-- Initial segmenter state (source lines 145-148). -/
def initState : SegState := ⟨none, [], [], none⟩

/-- Final emission of `process_input` (source lines 184-186): the still
open file, if truthy, is emitted with all accumulated content. -/
def finalize (st : SegState) : List (String × String) :=
  if truthyStr st.currentFile then
    st.files ++ [(st.currentFile.getD "", joinWith "\n" st.currentContent)]
  else st.files

/-- `process_input` (source lines 140-188) over a list of
newline-stripped lines. -/
def process_input (lines : List String) : List (String × String) :=
  finalize (lines.foldl processLine initState)

/-- Segmenting a whole input string: split at newlines (which is what
iterating the stream line by line and applying `rstrip('\n')` yields
for input without a trailing newline) and run `process_input`. -/
def segmentText (s : String) : List (String × String) :=
  process_input (splitLines s)

/-- Structured value produced by the third-party TOML parser
`tomli.loads`: tables of key-value pairs with string leaves.  Values of
other TOML types are not needed by any claim and are omitted; a
non-string `name` value would make the caller crash in `re.sub`, which
is outside the modelled core. -/
inductive TomlVal where
  | vStr : String → TomlVal
  | vTable : List (String × TomlVal) → TomlVal
deriving Repr

/-- Key lookup in a parsed TOML table (Python `d[k]` / `k in d`;
`tomli` produces dictionaries, whose keys are unique, so the first
match is the only one). -/
def tomlLookup : List (String × TomlVal) → String → Option TomlVal
  | [], _ => none
  | (k, v) :: rest, key => if k = key then some v else tomlLookup rest key

/-- Models Python `d.get('name')` on a parsed TOML value: a string
entry is returned, anything else yields `none` (on a string value the
attribute error raised by `.get` is caught by the caller's bare
`except`, which also returns `None`). -/
def TomlVal.getName : TomlVal → Option String
  | .vStr _ => none
  | .vTable es =>
    match tomlLookup es "name" with
    | some (.vStr s) => some s
    | _ => none

/-- Characters stripped by Python `str.strip()` with no argument. -/
def pySpace (c : Char) : Bool :=
  c == ' ' || c == Char.ofNat 9 || c == Char.ofNat 10 || c == Char.ofNat 11 ||
    c == Char.ofNat 12 || c == Char.ofNat 13

/-- Models Python `str.strip()` (whitespace from both ends). -/
def strTrim (s : String) : String :=
  String.mk (((s.data.dropWhile pySpace).reverse.dropWhile pySpace).reverse)

/-- Models Python `str.strip(chars)`: remove any of the given
characters from both ends. -/
def stripChars (bad : List Char) (s : String) : String :=
  String.mk (((s.data.dropWhile (bad.contains ·)).reverse.dropWhile
    (bad.contains ·)).reverse)

/-- Substring test over character lists (Python `sub in s`). -/
def containsSubAux (pat : List Char) : List Char → Bool
  | [] => pat.isEmpty
  | c :: cs => pat.isPrefixOf (c :: cs) || containsSubAux pat cs

/-- Models Python `sub in s` (substring containment). -/
def containsSub (sub s : String) : Bool := containsSubAux sub.data s.data

/-- Characters matched by the regex class `\s` (ASCII range, which is
all the manifests in the claims use). -/
def regexSpace (c : Char) : Bool := pySpace c

/-- Single-quote character, written by code point to keep the text plain. -/
def squote : Char := Char.ofNat 39

/-- Consume the literal `pat` from the head of the input, returning the
rest, or fail. -/
def dropLit : List Char → List Char → Option (List Char)
  | [], cs => some cs
  | p :: ps, c :: cs => if c == p then dropLit ps cs else none
  | _ :: _, [] => none

/-- Match the tail `name\s*=\s*"([^"]+)"` of the Cargo fallback regex
at the head of the input, returning the captured group. -/
def matchCargoNameAt (cs : List Char) : Option String :=
  match dropLit ("name".data) cs with
  | none => none
  | some cs1 =>
    match cs1.dropWhile regexSpace with
    | c :: cs2 =>
      if c == '=' then
        match cs2.dropWhile regexSpace with
        | q :: cs3 =>
          if q == '"' then
            let grp := cs3.takeWhile (· != '"')
            match grp, cs3.dropWhile (· != '"') with
            | _ :: _, r :: _ => if r == '"' then some (String.mk grp) else none
            | _, _ => none
          else none
        | [] => none
      else none
    | [] => none

/-- Leftmost search of `re.search(r'name\s*=\s*"([^"]+)"', line)`
(source line 37): try every start position from the left. -/
def searchCargoName : List Char → Option String
  | [] => none
  | c :: cs =>
    match matchCargoNameAt (c :: cs) with
    | some s => some s
    | none => searchCargoName cs

/-- Line loop of the Cargo fallback (source lines 34-39): the first
line whose stripped form starts with `name = ` and matches the regex
yields the captured name. -/
def cargoFallbackLines : List String → Option String
  | [] => none
  | line :: rest =>
    if strStartsWith (strTrim line) "name = " then
      match searchCargoName line.data with
      | some s => some s
      | none => cargoFallbackLines rest
    else cargoFallbackLines rest

/-- `extract_name_from_cargo_toml` (source lines 26-40): use the parsed
TOML when `tomli` succeeds (`package.name`), fall back to the
line-by-line regex scan when parsing fails. -/
def extract_name_from_cargo_toml (parsed : Option TomlVal) (content : String) :
    Option String :=
  match parsed with
  | none => cargoFallbackLines (splitLines content)
  | some (.vStr _) => none
  | some (.vTable data) =>
    match tomlLookup data "package" with
    | some (.vTable pkg) =>
      match tomlLookup pkg "name" with
      | some (.vStr s) => some s
      | _ => none
    | _ => none

/-- Fallback branch of `extract_name_from_pyproject` (source lines
50-51): the `project` table's name, when the table and a string name
exist. -/
def pyprojectProjectName (data : List (String × TomlVal)) : Option String :=
  match tomlLookup data "project" with
  | some project => project.getName
  | none => none

/-- `extract_name_from_pyproject` (source lines 42-54) over the
abstracted `tomli.loads` result: when the `tool` table holds a
`poetry` entry, that entry's `name` is returned even if absent
(`.get` may yield `None`); the `project` table is consulted only
otherwise. -/
def extract_name_from_pyproject (parsed : Option TomlVal) : Option String :=
  match parsed with
  | some (.vTable data) =>
    match tomlLookup data "tool" with
    | some (.vTable tool) =>
      match tomlLookup tool "poetry" with
      | some poetry => poetry.getName
      | none => pyprojectProjectName data
    | _ => pyprojectProjectName data
  | _ => none

/-- Match the tail `name\s*=\s*["\']([^"\']+)["\']` of the setup.py
regex at the head of the input, returning the captured group. -/
def matchSetupNameAt (cs : List Char) : Option String :=
  match dropLit ("name".data) cs with
  | none => none
  | some cs1 =>
    match cs1.dropWhile regexSpace with
    | c :: cs2 =>
      if c == '=' then
        match cs2.dropWhile regexSpace with
        | q :: cs3 =>
          if q == '"' || q == squote then
            let grp := cs3.takeWhile (fun d => !(d == '"' || d == squote))
            match grp, cs3.dropWhile (fun d => !(d == '"' || d == squote)) with
            | _ :: _, r :: _ =>
              if r == '"' || r == squote then some (String.mk grp) else none
            | _, _ => none
          else none
        | [] => none
      else none
    | [] => none

/-- Greedy backtracking for `[^)]*` in the setup.py regex: try the
longest span of non-`)` characters first, shrinking until the rest of
the pattern matches. -/
def setupGreedy (cs : List Char) : Nat → Option String
  | 0 => matchSetupNameAt cs
  | n + 1 =>
    match matchSetupNameAt (cs.drop (n + 1)) with
    | some s => some s
    | none => setupGreedy cs n

/-- Match `setup\s*\([^)]*name\s*=\s*["\']([^"\']+)["\']` at the head
of the input. -/
def matchSetupAt (cs : List Char) : Option String :=
  match dropLit ("setup".data) cs with
  | none => none
  | some cs1 =>
    match cs1.dropWhile regexSpace with
    | c :: cs2 =>
      if c == '(' then setupGreedy cs2 ((cs2.takeWhile (· != ')')).length)
      else none
    | [] => none

/-- Leftmost search for the setup.py pattern. -/
def searchSetup : List Char → Option String
  | [] => none
  | c :: cs =>
    match matchSetupAt (c :: cs) with
    | some s => some s
    | none => searchSetup cs

/-- `extract_name_from_setup_py` (source lines 56-62): regex-match a
`setup(...)` call for a quoted `name=` keyword argument. -/
def extract_name_from_setup_py (content : String) : Option String :=
  searchSetup content.data

/-- `extract_name_from_go_mod` (source lines 64-72): the first line
must start with `module `; the name is the last `/`-separated segment
of the module path. -/
def extract_name_from_go_mod (content : String) : Option String :=
  let first_line := strTrim ((splitLines content).headD "")
  if strStartsWith first_line "module " then
    let module_path := strTrim (strDrop first_line 7)
    some ((splitChar '/' module_path).getLastD "")
  else none

/-- Inline `package.json` scan of `find_project_name` (source lines
80-87): the first line containing the literal substring `"name"`
contributes `line.split(':')[1].strip().strip('",')`; a line with no
colon raises, which the bare `except` turns into no name. -/
def pkgJsonName (content : String) : Option String :=
  match (splitLines content).find? (fun line => containsSub "\"name\"" line) with
  | none => none
  | some line =>
    match splitChar ':' line with
    | _ :: seg :: _ => some (stripChars ['"', ','] (strTrim seg))
    | _ => none

/-- Reading of the same scan in the specification's words: the text
after the FIRST `:` of the line (everything up to the end of the
line), stripped the same way.  Kept separate to compare with the
source's behaviour. -/
def pkgJsonNameSpec (content : String) : Option String :=
  match (splitLines content).find? (fun line => containsSub "\"name\"" line) with
  | none => none
  | some line =>
    match splitChar ':' line with
    | _ :: seg :: rest => some (stripChars ['"', ','] (strTrim (joinWith ":" (seg :: rest))))
    | _ => none

/-- Characters the sanitizer keeps: the regex class `[\w\-\.]`
(`\w` in its ASCII reading: letters, digits, underscore). -/
def isWordChar (c : Char) : Bool := c.isAlphanum || c == '_'

/-- One character of `re.sub(r'[^\w\-\.]', '-', name)`. -/
def sanitizeChar (c : Char) : Char :=
  if isWordChar c || c == '-' || c == '.' then c else '-'

/-- Sanitization step of `find_project_name` (source lines 102-106):
replace every character outside `[\w\-\.]` with `-`, then strip
leading and trailing `-`. -/
def sanitize (n : String) : String :=
  stripChars ['-'] (String.mk (n.data.map sanitizeChar))

/-- `generate_default_name`'s search loop (source lines 113-117),
with the filesystem-existence check `os.path.exists` abstracted as
membership in the list `existing` of existing entries; the fuel
`existing.length + 1` suffices because the candidate names are
pairwise distinct. -/
def default_name_loop (existing : List String) : Nat → String → Nat → String
  | 0, base, _ => base
  | fuel + 1, base, i =>
    if existing.contains base then
      default_name_loop existing fuel ("project " ++ toString i) (i + 1)
    else base

/-- `generate_default_name` (source lines 111-118): `project`, then
`project 1`, `project 2`, ... until unused. -/
def generate_default_name (existing : List String) : String :=
  default_name_loop existing (existing.length + 1) "project" 1

/-- Dispatch on the manifest filename inside `find_project_name`
(source lines 77-99), with `tomli.loads` abstracted as `toml`. -/
def extract_raw_name (toml : String → Option TomlVal)
    (package_content filepath : String) : Option String :=
  if strEndsWith filepath "package.json" then pkgJsonName package_content
  else if strEndsWith filepath "Cargo.toml" then
    extract_name_from_cargo_toml (toml package_content) package_content
  else if strEndsWith filepath "pyproject.toml" then
    extract_name_from_pyproject (toml package_content)
  else if strEndsWith filepath "setup.py" then
    extract_name_from_setup_py package_content
  else if strEndsWith filepath "go.mod" then
    extract_name_from_go_mod package_content
  else none

/-- `find_project_name` (source lines 74-109): extract per manifest
kind, sanitize a truthy result, and fall back to the default-name
generator when nothing (or an empty string) survives. -/
def find_project_name (toml : String → Option TomlVal) (existing : List String)
    (package_content filepath : String) : String :=
  match extract_raw_name toml package_content filepath with
  | some n =>
    if n = "" then generate_default_name existing
    else
      let s := sanitize n
      if s = "" then generate_default_name existing else s
  | none => generate_default_name existing

/-- The priority-ordered manifest names, the keys of the
`config_files` dictionary of `create_project` (source lines 199-205). -/
def config_names : List String :=
  ["package.json", "Cargo.toml", "pyproject.toml", "setup.py", "go.mod"]

/-- First loop of `create_project`'s name resolution (source lines
207-211): scan the records in order and store the FIRST whose path is
a key of the dictionary, then stop (`break`). -/
def fill_config_files (files : List (String × String)) :
    List (String × Option String) :=
  match files.find? (fun pc => config_names.contains pc.1) with
  | none => config_names.map (fun n => (n, (none : Option String)))
  | some pc => config_names.map (fun n => if n = pc.1 then (n, some pc.2) else (n, none))

/-- Name resolution of `create_project` when no explicit name is given
(source lines 196-221): fill the dictionary, take its first non-`None`
entry in key order, and extract a name from it; default otherwise. -/
def resolve_project_name (toml : String → Option TomlVal) (existing : List String)
    (files : List (String × String)) : String :=
  match (fill_config_files files).find? (fun nc => nc.2.isSome) with
  | some (p, some c) => find_project_name toml existing c p
  | _ => generate_default_name existing

/-- `create_project`'s treatment of an explicit `project_name`
argument (source lines 196-197): it is used verbatim, resolution runs
only when it is absent. -/
def create_project_name (toml : String → Option TomlVal) (existing : List String)
    (files : List (String × String)) (explicit : Option String) : String :=
  match explicit with
  | some n => n
  | none => resolve_project_name toml existing files

/-- Record-order reading of the resolution: the manifest consulted is
the first RECORD whose path is one of the five manifest names,
regardless of the priority order of those names.  Stated separately to
be compared with `resolve_project_name`. -/
def resolve_by_record_order (toml : String → Option TomlVal) (existing : List String)
    (files : List (String × String)) : String :=
  match files.find? (fun pc => config_names.contains pc.1) with
  | some pc => find_project_name toml existing pc.2 pc.1
  | none => generate_default_name existing

/-- A `tomli.loads` stand-in that fails on every input (used where no
claim depends on structured TOML parsing). -/
def tomlFail : String → Option TomlVal := fun _ => none

example : segmentText "// a.txt\nhello\n\n// b.txt\nworld" =
    [("a.txt", "hello"), ("b.txt", "world")] := by decide

example : segmentText "// f.jsx\nsome\ncode\n// [Insert here]" =
    [("f.jsx", "[Insert here]")] := by decide

example : segmentText "// file1.txt\ncontent1\n\n# file2.txt\ncontent2" =
    [("file1.txt", "content1\n\n# file2.txt\ncontent2")] := by decide

example : segmentText "// f\na\n\n\n// g\nb" = [("f", "a\n"), ("g", "b")] := by decide

example : extract_name_from_go_mod "module github.com/user/go-project\ngo 1.16" =
    some "go-project" := by decide

example : pkgJsonName "\"name\": \"npm-project\"" = some "npm-project" := by decide

example : cargoFallbackLines (splitLines "[package]\nname = \"rust-project\"") =
    some "rust-project" := by decide

example : extract_name_from_setup_py
    "from setuptools import setup\n\nsetup(\n    name=\"python-setup-project\",\n    version=\"0.1.0\",\n)" =
    some "python-setup-project" := by decide

example : sanitize "rust@project!" = "rust-project" := by decide

example : sanitize "my project name" = "my-project-name" := by decide

example : generate_default_name [] = "project" := by decide

example : generate_default_name ["project", "project 1"] = "project 2" := by decide

example : find_project_name tomlFail [] "module github.com/user/go-project\ngo 1.16" "go.mod" =
    "go-project" := by decide

example : resolve_project_name tomlFail []
    [("go.mod", "module github.com/user/go-project"),
     ("package.json", "\"name\": \"npm-project\"")] = "go-project" := by decide

/-! Helper lemmas about the segmenter step. -/

/-- A line whose first character differs from `q`'s first character
does not start with `q`. -/
theorem strStartsWith_head_exclusive {line p q : String} {c d : Char}
    {ct cq : List Char} (hp : p.data = c :: ct) (hq : q.data = d :: cq)
    (hne : (d == c) = false) (h : strStartsWith line p = true) :
    strStartsWith line q = false := by
  unfold strStartsWith at h ⊢
  rw [hp] at h
  rw [hq]
  cases hd : line.data with
  | nil => rw [hd] at h; simp [List.isPrefixOf] at h
  | cons e es =>
    rw [hd] at h
    simp only [List.isPrefixOf, Bool.and_eq_true, beq_iff_eq] at h
    obtain ⟨hc, -⟩ := h
    subst hc
    simp [List.isPrefixOf, hne]

/-- The marker style after one step: kept once set, otherwise the
style the line itself detects. -/
theorem processLine_markerStyle (st : SegState) (line : String) :
    (processLine st line).markerStyle =
      (match st.markerStyle with
       | some s => some s
       | none => detect_style line) := by
  unfold processLine
  dsimp only
  split
  · split <;> rfl
  · split
    · split
      · split <;> rfl
      · rfl
    · rfl

/-- The marker style after the whole fold: the style of the state, or
the first style any line detects. -/
theorem foldl_markerStyle (lines : List String) : ∀ st : SegState,
    (lines.foldl processLine st).markerStyle =
      (match st.markerStyle with
       | some s => some s
       | none => lines.findSome? detect_style) := by
  induction lines with
  | nil =>
    intro st
    cases h : st.markerStyle <;> simp [h, List.findSome?]
  | cons l ls ih =>
    intro st
    rw [List.foldl_cons, ih, processLine_markerStyle]
    cases h : st.markerStyle with
    | some s => simp
    | none =>
      cases hd : detect_style l <;>
        simp [List.findSome?_cons, hd]

/-- C2: the marker style is fixed by the first line that begins with
`"// "` or `"# "`; once fixed, a line beginning with the other prefix
is ordinary content (appended when a file is open, ignored otherwise),
never a marker; segmenting the mixed-style example yields exactly one
record. -/
theorem C2_marker_style_exclusive :
    (∀ lines : List String,
        (lines.foldl processLine initState).markerStyle = lines.findSome? detect_style)
    ∧ (∀ (st : SegState) (line : String), st.markerStyle = some "// " →
        strStartsWith line "# " = true →
        processLine st line =
          (if truthyStr st.currentFile then
            { st with currentContent := st.currentContent ++ [line] }
          else st))
    ∧ (∀ (st : SegState) (line : String), st.markerStyle = some "# " →
        strStartsWith line "// " = true →
        processLine st line =
          (if truthyStr st.currentFile then
            { st with currentContent := st.currentContent ++ [line] }
          else st))
    ∧ segmentText "// file1.txt\ncontent1\n\n# file2.txt\ncontent2" =
        [("file1.txt", "content1\n\n# file2.txt\ncontent2")] := by
  refine ⟨?_, ?_, ?_, by decide⟩
  · intro lines
    rw [foldl_markerStyle]
    rfl
  · intro st line h1 h2
    have h3 : strStartsWith line "// " = false :=
      strStartsWith_head_exclusive (p := "# ") rfl rfl (by decide) h2
    have h4 : strStartsWith line "// [" = false :=
      strStartsWith_head_exclusive (p := "# ") rfl rfl (by decide) h2
    obtain ⟨cf, cc, fs, ms⟩ := st
    dsimp only at h1
    subst h1
    cases hcf : truthyStr cf <;>
      simp [processLine, h3, h4, hcf]
  · intro st line h1 h2
    have h3 : strStartsWith line "# " = false :=
      strStartsWith_head_exclusive (p := "// ") rfl rfl (by decide) h2
    have h4 : strStartsWith line "# [" = false :=
      strStartsWith_head_exclusive (p := "// ") rfl rfl (by decide) h2
    obtain ⟨cf, cc, fs, ms⟩ := st
    dsimp only at h1
    subst h1
    cases hcf : truthyStr cf <;>
      simp [processLine, h3, h4, hcf]

/-- C2 witness: with style fixed to `"// "` and a file open, a
markdown-style `# Header` line is appended as content. -/
theorem C2_witness :
    processLine ⟨some "README.md", ["x"], [], some "// "⟩ "# Header" =
      ⟨some "README.md", ["x", "# Header"], [], some "// "⟩ := by
  have h := C2_marker_style_exclusive.2.1
    ⟨some "README.md", ["x"], [], some "// "⟩ "# Header" rfl (by decide)
  simpa [truthyStr] using h

/-- C3: a placeholder line (active prefix, then `[`, ending in `]`)
seen while a file is open emits that file with the line minus the
prefix as its ENTIRE content, discarding everything accumulated, and
leaves no file open; the concrete example yields exactly
`[("f.jsx", "[Insert here]")]`. -/
theorem C3_placeholder_replaces_content :
    (∀ (st : SegState) (line style f : String), st.markerStyle = some style →
        st.currentFile = some f → f ≠ "" →
        strStartsWith line (style ++ "[") = true → strEndsWith line "]" = true →
        processLine st line =
          { currentFile := none, currentContent := [],
            files := st.files ++ [(f, strDrop line style.length)],
            markerStyle := some style })
    ∧ segmentText "// f.jsx\nsome\ncode\n// [Insert here]" =
        [("f.jsx", "[Insert here]")] := by
  refine ⟨?_, by decide⟩
  intro st line style f h1 h2 h3 h4 h5
  obtain ⟨cf, cc, fs, ms⟩ := st
  dsimp only at h1 h2
  subst h1
  subst h2
  simp [processLine, h3, h4, h5, truthyStr]

/-- C3 witness: a concrete placeholder step discards the accumulated
lines `some`, `code` and closes the file. -/
theorem C3_witness :
    processLine ⟨some "f.jsx", ["some", "code"], [], some "// "⟩ "// [Insert here]" =
      ⟨none, [], [("f.jsx", "[Insert here]")], some "// "⟩ := by
  have h := C3_placeholder_replaces_content.1
    ⟨some "f.jsx", ["some", "code"], [], some "// "⟩ "// [Insert here]" "// " "f.jsx"
    rfl rfl (by decide) (by decide) (by decide)
  exact h

/-- C4: when an open file is closed by a qualifying new-file marker,
exactly the single blank line immediately preceding the marker is
dropped from the emitted content (`current_content[:-1]`); earlier
blank lines remain, as the concrete example shows (`f` keeps one of
its two trailing blank lines). -/
theorem C4_single_separator_blank :
    (∀ (st : SegState) (line style f : String), st.markerStyle = some style →
        st.currentFile = some f → f ≠ "" →
        strStartsWith line style = true →
        strStartsWith line (style ++ "[") = false →
        st.currentContent.getLast? = some "" →
        processLine st line =
          { currentFile := some (strDrop line style.length), currentContent := [],
            files := st.files ++ [(f, joinWith "\n" st.currentContent.dropLast)],
            markerStyle := some style })
    ∧ segmentText "// f\na\n\n\n// g\nb" = [("f", "a\n"), ("g", "b")] := by
  refine ⟨?_, by decide⟩
  intro st line style f h1 h2 h3 h4 h5 h6
  obtain ⟨cf, cc, fs, ms⟩ := st
  dsimp only at h1 h2 h6
  subst h1
  subst h2
  simp [processLine, h3, h4, h5, h6, truthyStr]

/-- C4 witness: a concrete closing step drops only the final blank
line; the earlier blank stays in the content. -/
theorem C4_witness :
    processLine ⟨some "f", ["a", "", ""], [], some "// "⟩ "// g" =
      ⟨some "g", [], [("f", "a\n")], some "// "⟩ := by
  have h := C4_single_separator_blank.1
    ⟨some "f", ["a", "", ""], [], some "// "⟩ "// g" "// " "f"
    rfl rfl (by decide) (by decide) (by decide) (by decide)
  exact h

/-- C8: the basic two-file input segments into exactly the two
records, in order; the separator blank line belongs to neither file
and the final open file is emitted at end of input. -/
theorem C8_basic_two_files :
    segmentText "// a.txt\nhello\n\n// b.txt\nworld" =
      [("a.txt", "hello"), ("b.txt", "world")] := by decide

/-- A line that starts with neither recognized prefix leaves the
initial state unchanged. -/
theorem processLine_initState_no_marker (line : String)
    (h1 : strStartsWith line "// " = false)
    (h2 : strStartsWith line "# " = false) :
    processLine initState line = initState := by
  simp [processLine, initState, detect_style, h1, h2, truthyStr]

/-- C9: an input sequence in which no line begins with `"// "` or
`"# "` (the empty sequence included) segments to the empty record
list, with no error. -/
theorem C9_no_marker_lines (lines : List String)
    (h : ∀ l ∈ lines, strStartsWith l "// " = false ∧ strStartsWith l "# " = false) :
    process_input lines = [] := by
  have key : ∀ ls : List String,
      (∀ l ∈ ls, strStartsWith l "// " = false ∧ strStartsWith l "# " = false) →
      ls.foldl processLine initState = initState := by
    intro ls
    induction ls with
    | nil => intro _; rfl
    | cons l ls ih =>
      intro hh
      rw [List.foldl_cons,
        processLine_initState_no_marker l (hh l (by simp)).1 (hh l (by simp)).2]
      exact ih (fun x hx => hh x (List.mem_cons_of_mem _ hx))
  rw [process_input, key lines h]
  rfl

/-- C9 witness: a concrete marker-free input produces no records. -/
theorem C9_witness : process_input ["hello", "", "world"] = [] :=
  C9_no_marker_lines ["hello", "", "world"] (by decide)

/-- One step either leaves the emitted records unchanged or appends a
single record for the truthy open file. -/
theorem processLine_files_shape (st : SegState) (line : String) :
    (processLine st line).files = st.files ∨
    (truthyStr st.currentFile = true ∧ ∃ c : String,
      (processLine st line).files = st.files ++ [(st.currentFile.getD "", c)]) := by
  unfold processLine
  dsimp only
  split
  · split
    · next ht => exact Or.inr ⟨ht, _, rfl⟩
    · exact Or.inl rfl
  · split
    · next ht =>
      split
      · split
        · exact Or.inr ⟨ht, _, rfl⟩
        · exact Or.inl rfl
      · exact Or.inl rfl
    · exact Or.inl rfl

/-- One step preserves "every emitted path is non-empty". -/
theorem processLine_files_ne (st : SegState) (line : String)
    (h : ∀ r ∈ st.files, r.1 ≠ "") :
    ∀ r ∈ (processLine st line).files, r.1 ≠ "" := by
  rcases processLine_files_shape st line with heq | ⟨ht, c, heq⟩
  · rw [heq]; exact h
  · rw [heq]
    intro r hr
    rcases List.mem_append.1 hr with hr | hr
    · exact h r hr
    · rcases hcf : st.currentFile with _ | f
      · rw [hcf] at ht; simp [truthyStr] at ht
      · have hf : f ≠ "" := by
          rw [hcf] at ht; simpa [truthyStr] using ht
        rw [hcf] at hr
        simp only [List.mem_singleton] at hr
        subst hr
        simpa using hf

/-- The fold preserves "every emitted path is non-empty". -/
theorem foldl_files_ne (lines : List String) : ∀ st : SegState,
    (∀ r ∈ st.files, r.1 ≠ "") →
    ∀ r ∈ (lines.foldl processLine st).files, r.1 ≠ "" := by
  induction lines with
  | nil => intro st h; simpa using h
  | cons l ls ih => intro st h; exact ih _ (processLine_files_ne st l h)

/-- The final emission also only adds a record with a truthy (hence
non-empty) path. -/
theorem finalize_files_ne (st : SegState)
    (h : ∀ r ∈ st.files, r.1 ≠ "") : ∀ r ∈ finalize st, r.1 ≠ "" := by
  unfold finalize
  split
  · next ht =>
    intro r hr
    rcases List.mem_append.1 hr with hr | hr
    · exact h r hr
    · rcases hcf : st.currentFile with _ | f
      · rw [hcf] at ht; simp [truthyStr] at ht
      · have hf : f ≠ "" := by
          rw [hcf] at ht; simpa [truthyStr] using ht
        rw [hcf] at hr
        simp only [List.mem_singleton] at hr
        subst hr
        simpa using hf
  · exact h

/-- C10: every record the segmenter emits has a non-empty path.  A
marker line that is exactly the prefix (`"// "`) still closes and
emits the previously open file, but the "file" it opens is the falsy
empty string, which yields no record; while that empty string is the
current file, every line not starting with the prefix is ignored. -/
theorem C10_paths_nonempty :
    (∀ lines : List String, ∀ r ∈ process_input lines, r.1 ≠ "")
    ∧ (∀ (st : SegState) (f : String), st.markerStyle = some "// " →
        st.currentFile = some f → f ≠ "" →
        (st.currentContent = [] ∨ st.currentContent.getLast? = some "") →
        processLine st "// " =
          { currentFile := some "", currentContent := [],
            files := st.files ++ [(f, joinWith "\n" st.currentContent.dropLast)],
            markerStyle := some "// " })
    ∧ (∀ (st : SegState) (line : String), st.markerStyle = some "// " →
        st.currentFile = some "" → strStartsWith line "// " = false →
        processLine st line = st) := by
  refine ⟨?_, ?_, ?_⟩
  · intro lines r hr
    exact finalize_files_ne _ (foldl_files_ne lines initState (by simp [initState])) r hr
  · intro st f h1 h2 h3 h4
    obtain ⟨cf, cc, fs, ms⟩ := st
    dsimp only at h1 h2 h4
    subst h1
    subst h2
    rcases h4 with h4 | h4 <;>
      simp [processLine, h3, h4, truthyStr, strDrop] <;> rfl
  · intro st line h1 h2 h3
    obtain ⟨cf, cc, fs, ms⟩ := st
    dsimp only at h1 h2
    subst h1
    subst h2
    simp [processLine, h3, truthyStr]

/-- C10 witness: the sole record of a concrete input has a non-empty
path. -/
theorem C10_witness : (("a", "x") : String × String).1 ≠ "" :=
  C10_paths_nonempty.1 ["// a", "x"] ("a", "x") (by decide)

/-- Cargo manifest content used to exercise the resolution order. -/
def cargo_rust_content : String := "[package]\nname = \"rust-project\""

/-- package.json line content used to exercise the resolution order. -/
def pkg_npm_content : String := "\"name\": \"npm-project\""

/-- A `tomli.loads` stand-in that parses `cargo_rust_content` to the
table a real TOML parser produces for it, and fails elsewhere. -/
def toml_cargo : String → Option TomlVal := fun s =>
  if s = cargo_rust_content then
    some (.vTable [("package", .vTable [("name", .vStr "rust-project")])])
  else none

/-- C1 counterexample: with both `Cargo.toml` and `package.json`
present but `Cargo.toml` earlier in the stream, resolution extracts
from `Cargo.toml` (giving `rust-project`), even though the
`package.json` record would have yielded `npm-project`; the priority
order of the claim does not govern. -/
theorem C1_counterexample :
    resolve_project_name toml_cargo []
      [("Cargo.toml", cargo_rust_content), ("package.json", pkg_npm_content)] =
      "rust-project"
    ∧ find_project_name toml_cargo [] pkg_npm_content "package.json" =
      "npm-project" := by
  constructor <;> decide

/-- C1 (amended): the manifest consulted is the FIRST RECORD in stream
order whose path is one of `package.json`, `Cargo.toml`,
`pyproject.toml`, `setup.py`, `go.mod`; the fixed priority order of
those names plays no role beyond membership. -/
theorem C1_first_record_resolution (toml : String → Option TomlVal)
    (existing : List String) (files : List (String × String)) :
    resolve_project_name toml existing files =
      resolve_by_record_order toml existing files := by
  unfold resolve_project_name resolve_by_record_order fill_config_files
  cases hf : files.find? (fun pc => config_names.contains pc.1) with
  | none => rfl
  | some pc =>
    obtain ⟨p, c⟩ := pc
    have hmem : config_names.contains p = true := by
      simpa using List.find?_some hf
    have hp : p ∈ config_names := by simpa using hmem
    fin_cases hp <;> rfl

/-- C5 counterexample: a parsed pyproject document whose
`[tool.poetry]` table lacks a `name` but whose `[project]` table has
one yields NO name — the extraction does not fall back to
`project.name`, although that value is present. -/
theorem C5_counterexample :
    extract_name_from_pyproject (some (.vTable
      [("tool", .vTable [("poetry", .vTable [])]),
       ("project", .vTable [("name", .vStr "proj-x")])])) = none
    ∧ pyprojectProjectName
      [("tool", .vTable [("poetry", .vTable [])]),
       ("project", .vTable [("name", .vStr "proj-x")])] = some "proj-x" :=
  ⟨rfl, rfl⟩

/-- C5 (amended): `tool.poetry.name` is returned whenever the
`tool.poetry` entry exists — even when that table has no name, in
which case the result is no name rather than a fallback; `project.name`
is consulted only when the `tool` table or its `poetry` entry is
absent. -/
theorem C5_poetry_then_project :
    (∀ (data tool : List (String × TomlVal)) (poetry : TomlVal),
        tomlLookup data "tool" = some (.vTable tool) →
        tomlLookup tool "poetry" = some poetry →
        extract_name_from_pyproject (some (.vTable data)) = poetry.getName)
    ∧ (∀ data : List (String × TomlVal), tomlLookup data "tool" = none →
        extract_name_from_pyproject (some (.vTable data)) = pyprojectProjectName data)
    ∧ (∀ (data tool : List (String × TomlVal)),
        tomlLookup data "tool" = some (.vTable tool) →
        tomlLookup tool "poetry" = none →
        extract_name_from_pyproject (some (.vTable data)) = pyprojectProjectName data) := by
  refine ⟨?_, ?_, ?_⟩
  · intro data tool poetry h1 h2
    simp [extract_name_from_pyproject, h1, h2]
  · intro data h1
    simp [extract_name_from_pyproject, h1]
  · intro data tool h1 h2
    simp [extract_name_from_pyproject, h1, h2]

/-- C5 witness: a poetry table with a name resolves to that name. -/
theorem C5_witness :
    extract_name_from_pyproject (some (.vTable
      [("tool", .vTable [("poetry", .vTable [("name", .vStr "python-project")])])])) =
      some "python-project" := by
  have h := C5_poetry_then_project.1
    [("tool", .vTable [("poetry", .vTable [("name", .vStr "python-project")])])]
    [("poetry", .vTable [("name", .vStr "python-project")])]
    (.vTable [("name", .vStr "python-project")]) rfl rfl
  rw [h]
  rfl

/-- C6 counterexample: for a name line whose value itself contains a
`:`, the code takes only the segment between the first and second
colons (yielding `a`), not the whole text after the first colon
(which would yield `a:b`). -/
theorem C6_counterexample :
    pkgJsonName "\"name\": \"a:b\"," = some "a"
    ∧ pkgJsonNameSpec "\"name\": \"a:b\"," = some "a:b" := by
  constructor <;> decide

/-- C6 (amended): the raw name is the text strictly between the first
and second `:` of the first `"name"` line, stripped of whitespace and
of quote and comma characters; this coincides with "the whole text
after the first colon" exactly when the line contains at most one
colon. -/
theorem C6_between_first_two_colons (content line : String)
    (hline : (splitLines content).find? (fun l => containsSub "\"name\"" l) = some line)
    (hcolon : (splitChar ':' line).length ≤ 2) :
    pkgJsonName content = pkgJsonNameSpec content := by
  rcases h : splitChar ':' line with _ | ⟨a, _ | ⟨b, _ | ⟨c, rest⟩⟩⟩
  · simp [pkgJsonName, pkgJsonNameSpec, hline, h]
  · simp [pkgJsonName, pkgJsonNameSpec, hline, h]
  · simp [pkgJsonName, pkgJsonNameSpec, hline, h, joinWith]
  · rw [h] at hcolon
    simp only [List.length_cons] at hcolon
    omega

/-- C6 witness: on a single-colon line the two readings agree. -/
theorem C6_witness :
    pkgJsonName "\"name\": \"my-proj\"" = pkgJsonNameSpec "\"name\": \"my-proj\"" :=
  C6_between_first_two_colons "\"name\": \"my-proj\"" "\"name\": \"my-proj\""
    (by decide) (by decide)

/-- C7: a name extracted from a manifest is sanitized — every
character outside word characters, `-`, `.` becomes `-`, then leading
and trailing `-` are stripped; an empty sanitized result falls back to
the default-name generator; an explicitly supplied name is passed
through verbatim; the two concrete sanitizations of the claim hold. -/
theorem C7_sanitization :
    (∀ (toml : String → Option TomlVal) (existing : List String)
        (content filepath n : String),
        extract_raw_name toml content filepath = some n → n ≠ "" →
        find_project_name toml existing content filepath =
          (if sanitize n = "" then generate_default_name existing else sanitize n))
    ∧ (∀ (toml : String → Option TomlVal) (existing : List String)
        (files : List (String × String)) (n : String),
        create_project_name toml existing files (some n) = n)
    ∧ sanitize "rust@project!" = "rust-project"
    ∧ sanitize "my project name" = "my-project-name"
    ∧ find_project_name tomlFail [] "module @@@" "go.mod" = "project" := by
  refine ⟨?_, ?_, by decide, by decide, by decide⟩
  · intro toml existing content filepath n h hne
    simp [find_project_name, h, hne]
  · intro toml existing files n
    rfl

/-- C7 witness: the go.mod manifest name `rust@project!` is extracted
and sanitized to `rust-project`. -/
theorem C7_witness :
    extract_raw_name tomlFail "module rust@project!" "go.mod" = some "rust@project!"
    ∧ find_project_name tomlFail [] "module rust@project!" "go.mod" =
        (if sanitize "rust@project!" = "" then generate_default_name []
         else sanitize "rust@project!") :=
  ⟨by decide,
   C7_sanitization.1 tomlFail [] "module rust@project!" "go.mod" "rust@project!"
     (by decide) (by decide)⟩
